import Mathlib

/-!
Shallow embedding of the frame-camera gesture pipeline:
`src/components/CameraView.tsx` (Policy A, proximity-rectangle + dwell
auto-capture), `CameraViewV2.tsx` (Policy B, direct-connect + twitch edge)
and `CameraViewV3.tsx` (Policy C, adaptive contact + hysteresis).

Conventions of the embedding:
* JS numbers are modelled as exact rationals (all constants in the source
  are decimal literals, and every computation the claims touch is exact
  decimal arithmetic except `Math.hypot`).
* `Math.hypot` is irrational-valued.  Every place the source compares a
  single hypot against a nonnegative threshold is embedded as the
  equivalent comparison of squared quantities (`dist2 a b < t^2`), which
  agrees with the source exactly.  The two places where hypot *values*
  flow into arithmetic (the stability metric of CameraView, a sum of four
  hypots, and CameraViewV3's adaptive threshold, built from span/jitter
  hypots) are parameterised over the hypot function `f`; general theorems
  quantify over `f`, so they hold in particular for the true Euclidean
  hypot, and concrete traces only ever evaluate `f` at axis-aligned
  displacements (one component zero), where `hypotAx` below returns the
  exact Euclidean value.
* The per-tick loops are strictly sequential in the source (the next
  `requestAnimationFrame` callback is scheduled in the `finally` block
  after the awaited capture completes), so a tick is modelled as a pure
  state-transition function and a capture as an event-timestamp appended
  to the state; the `capturing` flag is true only inside a tick and is
  therefore always false when a tick begins.
* JS truthiness matters in CameraView: `stableSinceRef.current` is used
  as a boolean, so the timestamp `0` counts as unset; the embedding keeps
  that behaviour (`falsyTime`).
* `Array.prototype.sort` on a two-element array with comparator
  `a.i.x - b.i.x` swaps exactly when the first x is greater, which is the
  behaviour embedded in `orderByIndexX`.
-/

namespace FrameCam

/-- A 2D point in normalized video coordinates. -/
structure Point where
  x : ℚ
  y : ℚ
deriving DecidableEq, Repr

/-- One detected hand, reduced to the landmarks the frame builders read:
index fingertip (landmark 8), thumb tip (landmark 4), and the detector's
handedness label (unused by the geometry code; kept to state
label-independence). -/
structure Hand where
  tipI : Option Point
  tipT : Option Point
  handedLeft : Bool
deriving DecidableEq, Repr

/-- Squared Euclidean distance.  The source's `distance` is
`Math.hypot(dx, dy)`; every comparison `distance a b < t` with `t ≥ 0`
is embedded as `dist2 a b < t^2`. -/
def dist2 (a b : Point) : ℚ :=
  (a.x - b.x) ^ 2 + (a.y - b.y) ^ 2

/-- Midpoint of two points (the `(p+q)/2` contact centers). -/
def midp (a b : Point) : Point :=
  ⟨(a.x + b.x) / 2, (a.y + b.y) / 2⟩

/-- `clamp` from CameraViewV3: `Math.max(lo, Math.min(hi, v))`. -/
def clamp (v lo hi : ℚ) : ℚ :=
  max lo (min hi v)

/-- A hypot function that is exact on axis-aligned displacements
(`hypotAx dx 0 = |dx|`, `hypotAx 0 dy = |dy|`); concrete traces below only
evaluate the hypot parameter at such displacements. -/
def hypotAx (dx dy : ℚ) : ℚ :=
  if dx = 0 then |dy| else if dy = 0 then |dx| else 0

/-- The four corners of a candidate frame
(`topLeft / topRight / bottomRight / bottomLeft`). -/
structure Corners where
  tl : Point
  tr : Point
  br : Point
  bl : Point
deriving DecidableEq, Repr

/-- Result of a frame builder: `{ valid: boolean, corners?: Corners }`. -/
structure FrameResult where
  valid : Bool
  corners : Option Corners
deriving DecidableEq, Repr

/-- The corner points a result carries, as a list. -/
def cornerList (r : FrameResult) : List Point :=
  match r.corners with
  | some c => [c.tl, c.tr, c.br, c.bl]
  | none => []

/-- The corner points a result carries, as a multiset (order-insensitive). -/
def cornerBag (r : FrameResult) : Multiset Point :=
  (cornerList r : Multiset Point)

/-- Visual left/right disambiguation shared by all three pipelines:
the two (index, thumb) pairs are ordered by index-fingertip x.  A
two-element JS sort with comparator `a.i.x - b.i.x` swaps exactly when
the first index x is strictly greater. -/
def orderByIndexX (i1 t1 i2 t2 : Point) : (Point × Point) × (Point × Point) :=
  if i2.x < i1.x then ((i2, t2), (i1, t1)) else ((i1, t1), (i2, t2))

/-- CameraView's proximity contact threshold (`contactThresh = 0.08`). -/
def contactThreshA : ℚ := 8 / 100

/-- CameraView's minimum box size (`minSize = 0.04`). -/
def minSizeA : ℚ := 4 / 100

/-- The body of CameraView's `computeDirectorFrame` after left/right
ordering: same-type or criss-cross fingertip matching, rectangle from the
contact midpoints, minimum-size rejection. -/
def frameABody (Li Lt Ri Rt : Point) : FrameResult :=
  let sameOk := decide (dist2 Li Ri < contactThreshA ^ 2)
    && decide (dist2 Lt Rt < contactThreshA ^ 2)
  let crossOk := decide (dist2 Li Rt < contactThreshA ^ 2)
    && decide (dist2 Lt Ri < contactThreshA ^ 2)
  if sameOk || crossOk then
    let c1 := if sameOk then midp Li Ri else midp Li Rt
    let c2 := if sameOk then midp Lt Rt else midp Lt Ri
    let leftX := min c1.x c2.x
    let rightX := max c1.x c2.x
    let topY := min c1.y c2.y
    let bottomY := max c1.y c2.y
    if decide (minSizeA < rightX - leftX) && decide (minSizeA < bottomY - topY) then
      { valid := true
        corners := some ⟨⟨leftX, topY⟩, ⟨rightX, topY⟩, ⟨rightX, bottomY⟩, ⟨leftX, bottomY⟩⟩ }
    else { valid := false, corners := none }
  else { valid := false, corners := none }

/-- `computeDirectorFrame` of CameraView (Policy A): hands lacking a tip
make the candidate count fall short of 2 (invalid); otherwise the pair is
ordered by index x and fed to the matching body. -/
def computeDirectorFrameA (h1 h2 : Hand) : FrameResult :=
  match h1.tipI, h1.tipT, h2.tipI, h2.tipT with
  | some i1, some t1, some i2, some t2 =>
    let o := orderByIndexX i1 t1 i2 t2
    frameABody o.1.1 o.1.2 o.2.1 o.2.2
  | _, _, _, _ => { valid := false, corners := none }

/-- CameraViewV2's minimum frame size (`minSize = 0.025`). -/
def minSizeB : ℚ := 25 / 1000

/-- The body of CameraViewV2's `computeDirectorFrame` after left/right
ordering: the corners are the four tracked tips connected directly
(left index → right index → right thumb → left thumb); validity tests the
index span and the index-line/thumb-line vertical span.  Corners are
returned even when the validity flag is false. -/
def frameBBody (Li Lt Ri Rt : Point) : FrameResult :=
  let width := |Ri.x - Li.x|
  let topY := min Li.y Ri.y
  let bottomY := max Lt.y Rt.y
  let height := max 0 (bottomY - topY)
  { valid := decide (minSizeB < width) && decide (minSizeB < height)
    corners := some ⟨Li, Ri, Rt, Lt⟩ }

/-- `computeDirectorFrame` of CameraViewV2 (Policy B). -/
def computeDirectorFrameB (h1 h2 : Hand) : FrameResult :=
  match h1.tipI, h1.tipT, h2.tipI, h2.tipT with
  | some i1, some t1, some i2, some t2 =>
    let o := orderByIndexX i1 t1 i2 t2
    frameBBody o.1.1 o.1.2 o.2.1 o.2.2
  | _, _, _, _ => { valid := false, corners := none }

/-- A pixel-space source rectangle `(sx, sy, sw, sh)`. -/
structure Rect where
  sx : ℤ
  sy : ℤ
  sw : ℤ
  sh : ℤ
deriving DecidableEq, Repr

/-- The pre-fallback rectangle of `captureInternal` (CameraView and
CameraViewV2 share this code verbatim): axis-aligned bounding box of the
corners, scaled and floored to pixels, clamped to the frame. -/
def cropRectRaw (c : Corners) (sourceW sourceH : ℤ) : Rect :=
  let leftX := min c.tl.x c.bl.x
  let rightX := max c.tr.x c.br.x
  let topY := min c.tl.y c.tr.y
  let bottomY := max c.bl.y c.br.y
  let sx := max 0 (Int.floor (leftX * sourceW))
  let sy := max 0 (Int.floor (topY * sourceH))
  let sw := min (sourceW - sx) (Int.floor ((rightX - leftX) * sourceW))
  let sh := min (sourceH - sy) (Int.floor ((bottomY - topY) * sourceH))
  ⟨sx, sy, sw, sh⟩

/-- `captureInternal`'s crop rectangle: degenerate results (zero or
negative width/height) fall back to the full frame. -/
def cropRect (c : Corners) (sourceW sourceH : ℤ) : Rect :=
  let r := cropRectRaw c sourceW sourceH
  if r.sw ≤ 0 ∨ r.sh ≤ 0 then ⟨0, 0, sourceW, sourceH⟩ else r

/-- Minimum of a list of rationals with a seed
(JS `Math.min(...xs)` over a nonempty list). -/
def listMin (a : ℚ) (l : List ℚ) : ℚ :=
  l.foldl min a

/-- Maximum of a list of rationals with a seed. -/
def listMax (a : ℚ) (l : List ℚ) : ℚ :=
  l.foldl max a

/-- The source rectangle computed by `captureArbitraryPolygon`
(CameraViewV3) and `capturePolygon` (CameraViewV2): bounding box of the
normalized points, floored/ceiled to pixels, clamped to the frame, and
width/height clamped below by one pixel.  Returns `none` for fewer than
3 points (the function returns early in that case). -/
def cropPolyRect (pts : List Point) (sourceW sourceH : ℤ) : Option Rect :=
  match pts with
  | p0 :: p1 :: p2 :: rest =>
    let all := p0 :: p1 :: p2 :: rest
    let xs := all.map Point.x
    let ys := all.map Point.y
    let left := max 0 (Int.floor (listMin p0.x xs * sourceW))
    let right := min sourceW (Int.ceil (listMax p0.x xs * sourceW))
    let top := max 0 (Int.floor (listMin p0.y ys * sourceH))
    let bottom := min sourceH (Int.ceil (listMax p0.y ys * sourceH))
    some ⟨left, top, max 1 (right - left), max 1 (bottom - top)⟩
  | _ => none

/-- Corner-wise sum of two corner sets (the accumulator step of
`averageCorners`' reduce). -/
def addCorners (a c : Corners) : Corners :=
  ⟨⟨a.tl.x + c.tl.x, a.tl.y + c.tl.y⟩, ⟨a.tr.x + c.tr.x, a.tr.y + c.tr.y⟩,
   ⟨a.br.x + c.br.x, a.br.y + c.br.y⟩, ⟨a.bl.x + c.bl.x, a.bl.y + c.bl.y⟩⟩

/-- The zero corner set (the reduce's initial accumulator). -/
def zeroCorners : Corners :=
  ⟨⟨0, 0⟩, ⟨0, 0⟩, ⟨0, 0⟩, ⟨0, 0⟩⟩

/-- `averageCorners`: corner-wise arithmetic mean of a history
(identical in CameraView and CameraViewV2). -/
def averageCorners (history : List Corners) : Corners :=
  let n : ℚ := history.length
  let s := history.foldl addCorners zeroCorners
  ⟨⟨s.tl.x / n, s.tl.y / n⟩, ⟨s.tr.x / n, s.tr.y / n⟩,
   ⟨s.br.x / n, s.br.y / n⟩, ⟨s.bl.x / n, s.bl.y / n⟩⟩

/-- `hist.push(c); if (hist.length > cap) hist.shift()`: FIFO append with
single-eviction beyond capacity. -/
def pushEvict (hist : List Corners) (c : Corners) (cap : ℕ) : List Corners :=
  let h2 := hist ++ [c]
  if cap < h2.length then h2.drop 1 else h2

/-- Pixel-space corner displacement: the source computes
`distance({x: p.x*w, y: p.y*h}, {x: q.x*w, y: q.y*h})`, i.e.
`hypot((p.x-q.x)*w, (p.y-q.y)*h)`, with `f` standing for `Math.hypot`. -/
def dpix (f : ℚ → ℚ → ℚ) (w h : ℚ) (p q : Point) : ℚ :=
  f ((p.x - q.x) * w) ((p.y - q.y) * h)

/-- CameraView's per-tick stability classification: with at least 3
history entries, average pixel displacement between the mean of the two
oldest entries and the mean of the whole history must be below 6 px. -/
def stableA (f : ℚ → ℚ → ℚ) (w h : ℚ) (hist : List Corners) : Bool :=
  if 3 ≤ hist.length then
    let prev := averageCorners (hist.take 2)
    let cur := averageCorners hist
    let delta := dpix f w h prev.tl cur.tl + dpix f w h prev.tr cur.tr
      + dpix f w h prev.br cur.br + dpix f w h prev.bl cur.bl
    decide (delta / 4 < 6)
  else false

/-- `AUTO_CAPTURE_MS` (CameraView). -/
def autoCaptureMs : ℚ := 300

/-- JS truthiness of `stableSinceRef.current`: `null` and the timestamp
`0` are both falsy. -/
def falsyTime : Option ℚ → Bool
  | none => true
  | some u => decide (u = 0)

/-- CameraView's dwell-and-capture block (the tail of the valid branch):
sets the dwell start on the first stable tick, clears it on an unstable
tick, and captures when the dwell has lasted `AUTO_CAPTURE_MS`; a capture
appends its timestamp and clears the dwell start. -/
def dwellStep (now : ℚ) (st : Bool) (since : Option ℚ) (caps : List ℚ) :
    Option ℚ × List ℚ :=
  let s1 := if falsyTime since && st then some now else since
  let s2 := if st then s1 else none
  match s2 with
  | some u =>
    if st && !falsyTime (some u) && decide (autoCaptureMs ≤ now - u) then
      (none, caps ++ [now])
    else (s2, caps)
  | none => (none, caps)

/-- Mutable state of a CameraView (Policy A) pipeline instance. -/
structure StateA where
  hist : List Corners
  since : Option ℚ
  captures : List ℚ
  currentCorners : Option Corners
deriving DecidableEq, Repr

/-- Initial CameraView state. -/
def initA : StateA :=
  { hist := [], since := none, captures := [], currentCorners := none }

/-- One CameraView tick on a detector result `hands` at time `now`
(canvas pixel size `w × h`; `f` is `Math.hypot`).  Mirrors the
`tick` closure: fewer than two hands only update the status line; with
two hands, the builder runs, valid corners feed the smoother and the
dwell/capture logic. -/
def tickA (f : ℚ → ℚ → ℚ) (w h : ℚ) (s : StateA) (now : ℚ)
    (hands : List Hand) : StateA :=
  match hands with
  | h1 :: h2 :: _ =>
    let res := computeDirectorFrameA h1 h2
    match res.corners with
    | some c =>
      let hist2 := pushEvict s.hist c 3
      let sm := averageCorners hist2
      let st := stableA f w h hist2
      if res.valid then
        let d := dwellStep now st s.since s.captures
        { hist := hist2, since := d.1, captures := d.2, currentCorners := some sm }
      else
        { hist := hist2, since := s.since, captures := s.captures,
          currentCorners := some sm }
    | none => { s with currentCorners := none }
  | _ => { s with currentCorners := none }

/-- A detector trace: one `(timestamp, hands)` pair per tick. -/
abbrev Trace := List (ℚ × List Hand)

/-- Run a CameraView pipeline over a trace. -/
def runA (f : ℚ → ℚ → ℚ) (w h : ℚ) (s : StateA) : Trace → StateA
  | [] => s
  | (now, hands) :: rest => runA f w h (tickA f w h s now hands) rest

/-- `TWITCH_WINDOW_MS` (CameraViewV2). -/
def twitchWindowMs : ℚ := 350

/-- `DOWN_AMP` (CameraViewV2). -/
def downAmp : ℚ := 2 / 100

/-- `UP_AMP` (CameraViewV2). -/
def upAmp : ℚ := 2 / 100

/-- `INST_DOWN_VEL` (CameraViewV2). -/
def instDownVel : ℚ := 1 / 100

/-- `SHUTTER_ARM_DELAY_MS` (CameraViewV2). -/
def shutterArmDelayMs : ℚ := 600

/-- Per-side twitch detector state (`phase` is `idle`/`down`). -/
structure TwitchState where
  down : Bool
  startY : ℚ
  downY : ℚ
  hasDown : Bool
  startTime : ℚ
deriving DecidableEq, Repr

/-- The idle twitch state the source resets to. -/
def twitchInit : TwitchState :=
  { down := false, startY := 0, downY := 0, hasDown := false, startTime := 0 }

/-- `processSide` (CameraViewV2 tick): the per-side twitch state machine.
Returns the next state and whether the capture-qualifying edge fired.
In image coordinates larger y is lower, so a "down" move increases y. -/
def processSide (st : TwitchState) (now y prevY : ℚ) : TwitchState × Bool :=
  if st.down = false then
    if decide (instDownVel ≤ y - prevY) then
      ({ down := true, startY := prevY, downY := y,
         hasDown := decide (downAmp ≤ y - prevY), startTime := now }, false)
    else (st, false)
  else
    if decide (twitchWindowMs < now - st.startTime) then
      ({ st with down := false }, false)
    else
      let dY := max st.downY y
      let hasD := st.hasDown || decide (downAmp ≤ dY - st.startY)
      if hasD && decide (upAmp ≤ dY - y) then
        ({ st with down := false, downY := dY, hasDown := hasD }, true)
      else
        ({ st with downY := dY, hasDown := hasD }, false)

/-- Run `processSide` over a list of `(time, y)` samples, threading the
previous-y baseline exactly as `prevIndexYRef` does (updated to the
current y after each tick); returns the final state and the number of
fired edges. -/
def runTwitch (st : TwitchState) (prev : ℚ) : List (ℚ × ℚ) → TwitchState × ℕ
  | [] => (st, 0)
  | (now, y) :: rest =>
    let p := processSide st now y prev
    let r := runTwitch p.1 y rest
    (r.1, (if p.2 then 1 else 0) + r.2)

/-- Mutable state of a CameraViewV2 (Policy B) pipeline instance. -/
structure StateB where
  hist : List Corners
  twL : TwitchState
  twR : TwitchState
  prevL : ℚ
  prevR : ℚ
  twoSince : Option ℚ
  captures : List ℚ
  currentCorners : Option Corners
deriving DecidableEq, Repr

/-- Initial CameraViewV2 state (`prevIndexYRef` starts at `{left: 0,
right: 0}`). -/
def initB : StateB :=
  { hist := [], twL := twitchInit, twR := twitchInit, prevL := 0, prevR := 0,
    twoSince := none, captures := [], currentCorners := none }

/-- One CameraViewV2 tick: zero hands reset the arming window and both
twitch states, one hand resets the arming window; with two hands the
builder runs, corners feed the capacity-2 smoother, and — once the
600 ms arming delay has elapsed — the smoothed top-edge y of each side
drives `processSide`, whose fired edge triggers a capture.  Baselines
track the current smoothed values while unarmed. -/
def tickB (s : StateB) (now : ℚ) (hands : List Hand) : StateB :=
  match hands with
  | [] => { s with twoSince := none, twL := twitchInit, twR := twitchInit,
                   currentCorners := none }
  | [_] => { s with twoSince := none, currentCorners := none }
  | h1 :: h2 :: _ =>
    let res := computeDirectorFrameB h1 h2
    match res.corners with
    | none => { s with currentCorners := none }
    | some c =>
      let hist2 := pushEvict s.hist c 2
      let sm := averageCorners hist2
      let leftY := sm.tl.y
      let rightY := sm.tr.y
      let init? := s.twoSince.isNone
      let since2 := if init? then some now else s.twoSince
      let pL := if init? then leftY else s.prevL
      let pR := if init? then rightY else s.prevR
      let tL := if init? then twitchInit else s.twL
      let tR := if init? then twitchInit else s.twR
      let armed := match since2 with
        | some u => decide (shutterArmDelayMs ≤ now - u)
        | none => false
      if armed then
        let pcL := if res.valid then processSide tL now leftY pL else (tL, false)
        let pcR := if res.valid then processSide tR now rightY pR else (tR, false)
        let caps := if pcL.2 || pcR.2 then s.captures ++ [now] else s.captures
        { hist := hist2, twL := pcL.1, twR := pcR.1, prevL := leftY,
          prevR := rightY, twoSince := since2, captures := caps,
          currentCorners := some sm }
      else
        { hist := hist2, twL := tL, twR := tR, prevL := leftY, prevR := rightY,
          twoSince := since2, captures := s.captures, currentCorners := some sm }

/-- Run a CameraViewV2 pipeline over a trace. -/
def runB (s : StateB) : Trace → StateB
  | [] => s
  | (now, hands) :: rest => runB (tickB s now hands) rest

/-- `CONTACT_SCALE` (CameraViewV3). -/
def contactScale : ℚ := 18 / 100

/-- `CONTACT_MIN` (CameraViewV3). -/
def contactMin : ℚ := 5 / 1000

/-- `CONTACT_MAX` (CameraViewV3). -/
def contactMax : ℚ := 5 / 100

/-- `CONTACT_HOLD_MS` (CameraViewV3). -/
def contactHoldMs : ℚ := 150

/-- `CONTACT_RELEASE_MULT` (CameraViewV3). -/
def contactReleaseMult : ℚ := 7 / 5

/-- `MIN_TIME_BETWEEN_CAPTURES_MS` (CameraViewV3). -/
def minTimeBetweenCapturesMs : ℚ := 400

/-- `CONTACT_MOBILE_BOOST` (CameraViewV3). -/
def contactMobileBoost : ℚ := 7 / 2

/-- `JITTER_EMA_ALPHA` (CameraViewV3). -/
def jitterEmaAlpha : ℚ := 35 / 100

/-- `JITTER_GAIN` (CameraViewV3). -/
def jitterGain : ℚ := 2

/-- `minSpan` (CameraViewV3 tick). -/
def minSpanC : ℚ := 5 / 100

/-- Hypot of the displacement between two points, with `f` standing for
`Math.hypot` (used where the source feeds distance values into
arithmetic). -/
def distF (f : ℚ → ℚ → ℚ) (a b : Point) : ℚ :=
  f (a.x - b.x) (a.y - b.y)

/-- CameraViewV3's jitter-EMA update: mean displacement of the four tips
against the previous tick's tips (0 when there are no previous tips),
folded into the EMA with `JITTER_EMA_ALPHA`. -/
def emaNextC (f : ℚ → ℚ → ℚ) (ema : ℚ)
    (prevTips : Option (Point × Point × Point × Point))
    (Li Lt Ri Rt : Point) : ℚ :=
  let fj := match prevTips with
    | none => 0
    | some (pLi, pLt, pRi, pRt) =>
      (distF f Li pLi + distF f Lt pLt + distF f Ri pRi + distF f Rt pRt) / 4
  ema + (fj - ema) * jitterEmaAlpha

/-- CameraViewV3's adaptive contact threshold:
`clamp(avgSpan * CONTACT_SCALE * deviceBoost + jitterEma * JITTER_GAIN,
CONTACT_MIN, CONTACT_MAX)`. -/
def contactThreshC (coarse : Bool) (avgSpan ema : ℚ) : ℚ :=
  let deviceBoost := if coarse then contactMobileBoost else 1
  clamp (avgSpan * contactScale * deviceBoost + ema * jitterGain)
    contactMin contactMax

/-- Mutable state of a CameraViewV3 (Policy C) pipeline instance. -/
structure StateC where
  lastCaptureAt : ℚ
  contactSince : Option ℚ
  jitterEma : ℚ
  prevTips : Option (Point × Point × Point × Point)
  captures : List ℚ
deriving DecidableEq, Repr

/-- Initial CameraViewV3 state (`lastCaptureAtRef` starts at 0). -/
def initC : StateC :=
  { lastCaptureAt := 0, contactSince := none, jitterEma := 0,
    prevTips := none, captures := [] }

/-- The contact threshold a CameraViewV3 two-hand tick computes:
`contactThreshC` applied to the tick's average hand span and the jitter
EMA as already advanced for this tick. -/
def contactThreshOfC (f : ℚ → ℚ → ℚ) (coarse : Bool) (s : StateC)
    (Li Lt Ri Rt : Point) : ℚ :=
  contactThreshC coarse ((distF f Li Lt + distF f Ri Rt) / 2)
    (emaNextC f s.jitterEma s.prevTips Li Lt Ri Rt)

/-- `touchingNow` of the CameraViewV3 tick: both hand spans exceed
`minSpan` and a same-type pair, a cross pair, or (on coarse-pointer
devices) any single qualifying pair is below the contact threshold. -/
def touchingC (f : ℚ → ℚ → ℚ) (coarse : Bool) (s : StateC)
    (Li Lt Ri Rt : Point) : Bool :=
  let thresh := contactThreshOfC f coarse s Li Lt Ri Rt
  (decide (minSpanC < distF f Li Lt) && decide (minSpanC < distF f Ri Rt)) &&
    ((decide (distF f Li Ri < thresh) && decide (distF f Lt Rt < thresh)) ||
     (decide (distF f Li Rt < thresh) && decide (distF f Lt Ri < thresh)) ||
     (coarse && (decide (distF f Li Ri < thresh) || decide (distF f Lt Rt < thresh))))

/-- `apartEnough` of the CameraViewV3 tick: at least one of the four
pairwise tip distances exceeds the release threshold
(contact threshold × `CONTACT_RELEASE_MULT`). -/
def apartC (f : ℚ → ℚ → ℚ) (coarse : Bool) (s : StateC)
    (Li Lt Ri Rt : Point) : Bool :=
  let rel := contactThreshOfC f coarse s Li Lt Ri Rt * contactReleaseMult
  decide (rel < distF f Li Ri) || decide (rel < distF f Lt Rt)
    || decide (rel < distF f Li Rt) || decide (rel < distF f Lt Ri)

/-- The two-hand body of the CameraViewV3 tick, after left/right
ordering: hand-span validity, jitter EMA update, adaptive threshold,
four pairwise tip distances, touching classification with the
release-hysteresis reset, contact-hold timing and the debounced
capture. -/
def twoHandStepC (f : ℚ → ℚ → ℚ) (coarse : Bool) (s : StateC) (now : ℚ)
    (Li Lt Ri Rt : Point) : StateC :=
  let ema2 := emaNextC f s.jitterEma s.prevTips Li Lt Ri Rt
  let tips2 := some (Li, Lt, Ri, Rt)
  if touchingC f coarse s Li Lt Ri Rt then
    let u := match s.contactSince with
      | none => now
      | some v => v
    let holdMs := if coarse then contactHoldMs + 20 else contactHoldMs
    if decide (holdMs ≤ now - u)
        && decide (minTimeBetweenCapturesMs < now - s.lastCaptureAt) then
      { lastCaptureAt := now, contactSince := none, jitterEma := ema2,
        prevTips := tips2, captures := s.captures ++ [now] }
    else
      { lastCaptureAt := s.lastCaptureAt, contactSince := some u,
        jitterEma := ema2, prevTips := tips2, captures := s.captures }
  else
    { lastCaptureAt := s.lastCaptureAt,
      contactSince := if apartC f coarse s Li Lt Ri Rt then none else s.contactSince,
      jitterEma := ema2, prevTips := tips2, captures := s.captures }

/-- One CameraViewV3 tick: zero or one detected hands clear the
contact-hold start; with at least two detected hands the first two hands
exposing both tips (if any) are ordered by index x and processed by
`twoHandStepC`.  The crop polygon itself is handed to
`captureArbitraryPolygon` (embedded separately as `cropPolyRect`); here a
capture is recorded by its timestamp. -/
def tickC (f : ℚ → ℚ → ℚ) (coarse : Bool) (s : StateC) (now : ℚ)
    (hands : List Hand) : StateC :=
  match hands with
  | [] => { s with contactSince := none }
  | [_] => { s with contactSince := none }
  | _ :: _ :: _ =>
    match hands.filter (fun hd => hd.tipI.isSome && hd.tipT.isSome) with
    | hA :: hB :: _ =>
      match hA.tipI, hA.tipT, hB.tipI, hB.tipT with
      | some iA, some tA, some iB, some tB =>
        let o := orderByIndexX iA tA iB tB
        twoHandStepC f coarse s now o.1.1 o.1.2 o.2.1 o.2.2
      | _, _, _, _ => s
    | _ => s

/-- Run a CameraViewV3 pipeline over a trace. -/
def runC (f : ℚ → ℚ → ℚ) (coarse : Bool) (s : StateC) : Trace → StateC
  | [] => s
  | (now, hands) :: rest => runC f coarse (tickC f coarse s now hands) rest

/-- The release threshold a CameraViewV3 two-hand tick computes from its
state and the four ordered tips (`contactThresh * CONTACT_RELEASE_MULT`,
with the jitter EMA already advanced for this tick). -/
def releaseThreshC (f : ℚ → ℚ → ℚ) (coarse : Bool) (s : StateC)
    (Li Lt Ri Rt : Point) : ℚ :=
  contactThreshOfC f coarse s Li Lt Ri Rt * contactReleaseMult

/-- The four pairwise fingertip distances a CameraViewV3 two-hand tick
tests (same-type index, same-type thumb, cross index-thumb, cross
thumb-index). -/
def tipDistsC (f : ℚ → ℚ → ℚ) (Li Lt Ri Rt : Point) : List ℚ :=
  [distF f Li Ri, distF f Lt Rt, distF f Li Rt, distF f Lt Ri]

/-! Concrete detector inputs used by witnesses and counterexamples.
All fingertip displacements across these traces are axis-aligned, so
`hypotAx` evaluates `Math.hypot` exactly on them. -/

/-- A concrete hand pair forming a valid Policy A gesture (fingertips in
contact, contact midpoints 0.1 apart on both axes). -/
def handA1 : Hand := ⟨some ⟨3/10, 3/10⟩, some ⟨4/10, 4/10⟩, true⟩

/-- The matching right hand of the Policy A gesture. -/
def handA2 : Hand := ⟨some ⟨34/100, 33/100⟩, some ⟨44/100, 43/100⟩, false⟩

/-- The two-hand observation fed repeatedly in the motionless traces. -/
def obsA : List Hand := [handA1, handA2]

/-- The candidate corners `computeDirectorFrameA` produces for `obsA`. -/
def cornersA0 : Corners :=
  ⟨⟨8/25, 63/200⟩, ⟨21/50, 63/200⟩, ⟨21/50, 83/200⟩, ⟨8/25, 83/200⟩⟩

/-- A hand pair whose fingertips are far apart: Policy A yields no
corners (invalid, no geometry). -/
def handFar1 : Hand := ⟨some ⟨1/10, 1/2⟩, some ⟨1/10, 6/10⟩, true⟩

/-- The far-apart right hand. -/
def handFar2 : Hand := ⟨some ⟨9/10, 1/2⟩, some ⟨9/10, 6/10⟩, false⟩

/-- Motionless trace, ticks every 50 ms through 250 ms. -/
def traceA250 : Trace :=
  [(0, obsA), (50, obsA), (100, obsA), (150, obsA), (200, obsA), (250, obsA)]

/-- Motionless trace through 400 ms (the first capture fires at 400). -/
def traceA400 : Trace :=
  traceA250 ++ [(300, obsA), (350, obsA), (400, obsA)]

/-- Motionless trace through 350 ms (one tick short of the capture). -/
def traceA350 : Trace :=
  traceA250 ++ [(300, obsA), (350, obsA)]

/-- Motionless trace through 750 ms (two captures, at 400 and 750). -/
def traceA750 : Trace :=
  traceA400 ++ [(450, obsA), (500, obsA), (550, obsA), (600, obsA),
                (650, obsA), (700, obsA), (750, obsA)]

/-- Policy B left hand with the index fingertip at vertical position `y`. -/
def handBL (y : ℚ) : Hand := ⟨some ⟨3/10, y⟩, some ⟨3/10, 4/5⟩, true⟩

/-- Policy B right hand (motionless). -/
def handBR : Hand := ⟨some ⟨7/10, 1/2⟩, some ⟨7/10, 4/5⟩, false⟩

/-- Policy B observation with the left index at `y`. -/
def obsB (y : ℚ) : List Hand := [handBL y, handBR]

/-- A Policy B trace performing two left-hand twitch gestures in quick
succession after the 600 ms arming delay: captures fire at 648 and 696. -/
def traceB : Trace :=
  [(0, obsB (1/2)), (600, obsB (1/2)), (616, obsB (58/100)),
   (632, obsB (58/100)), (648, obsB (42/100)), (664, obsB (66/100)),
   (680, obsB (66/100)), (696, obsB (34/100))]

/-- Policy C left hand: index and thumb 0.1 apart vertically on the line
x = 1/2. -/
def handCL : Hand := ⟨some ⟨1/2, 3/10⟩, some ⟨1/2, 2/5⟩, true⟩

/-- Policy C right hand, first tick: tips 0.01 from the left hand's
(touching). -/
def handCR1 : Hand := ⟨some ⟨1/2, 31/100⟩, some ⟨1/2, 41/100⟩, false⟩

/-- Policy C right hand, second tick: moved down 0.025, putting the
same-type distances (0.035) between the tick's contact threshold
(107/4000 = 0.02675) and the release threshold (749/20000 = 0.03745). -/
def handCR2 : Hand := ⟨some ⟨1/2, 67/200⟩, some ⟨1/2, 87/200⟩, false⟩

/-- Policy C touching trace (hold from 500 ms, capture at 700 ms). -/
def traceC : Trace :=
  [(500, [handCL, handCR1]), (600, [handCL, handCR1]), (700, [handCL, handCR1])]

/-- The CameraViewV3 state after one touching tick at time 0
(contact established, jitter EMA still 0). -/
def stateC1 : StateC := tickC hypotAx false initC 0 [handCL, handCR1]

/-! Helper lemmas. -/

lemma dist2_comm (a b : Point) : dist2 a b = dist2 b a := by
  unfold dist2; ring

lemma midp_comm (a b : Point) : midp a b = midp b a := by
  unfold midp
  rw [add_comm a.x b.x, add_comm a.y b.y]

lemma append_singleton_ne (l : List ℚ) (a : ℚ) : l ++ [a] ≠ l := by
  intro hEq
  have hLen := congrArg List.length hEq
  simp at hLen

/-! Claim C8. -/

/-- Claim C8: the crop projector maps the normalized box
(0.2,0.2),(0.8,0.2),(0.8,0.8),(0.2,0.8) at a 1000×500 source resolution to
exactly the pixel rectangle x from 200 to 800 and y from 100 to 400, i.e.
(sx, sy, sw, sh) = (200, 100, 600, 300), in both the axis-aligned path
(`captureInternal`) and the polygon path (`captureArbitraryPolygon` /
`capturePolygon`). -/
theorem c8_crop_concrete :
    cropRect ⟨⟨1/5, 1/5⟩, ⟨4/5, 1/5⟩, ⟨4/5, 4/5⟩, ⟨1/5, 4/5⟩⟩ 1000 500
      = ⟨200, 100, 600, 300⟩ ∧
    cropPolyRect [⟨1/5, 1/5⟩, ⟨4/5, 1/5⟩, ⟨4/5, 4/5⟩, ⟨1/5, 4/5⟩] 1000 500
      = some ⟨200, 100, 600, 300⟩ := by
  constructor <;>
    norm_num [cropRect, cropRectRaw, cropPolyRect, listMin, listMax, min_def, max_def]

/-! Claim C9. -/

/-- Claim C9 (amended): only the axis-aligned crop of `captureInternal`
(Policies A and B's rectangle path) falls back to the full frame on a
degenerate rectangle; the polygon capture paths (`capturePolygon`,
`captureArbitraryPolygon`) instead clamp the extracted width and height
below by one pixel and never substitute the full frame. -/
theorem c9_degenerate_crop_amended :
    (∀ (c : Corners) (sourceW sourceH : ℤ),
      (cropRectRaw c sourceW sourceH).sw ≤ 0 ∨ (cropRectRaw c sourceW sourceH).sh ≤ 0 →
      cropRect c sourceW sourceH = ⟨0, 0, sourceW, sourceH⟩) ∧
    (∀ (pts : List Point) (sourceW sourceH : ℤ) (r : Rect),
      cropPolyRect pts sourceW sourceH = some r → 1 ≤ r.sw ∧ 1 ≤ r.sh) := by
  constructor
  · intro c sourceW sourceH hdeg
    unfold cropRect
    rw [if_pos hdeg]
  · intro pts sourceW sourceH r h
    match pts, h with
    | p0 :: p1 :: p2 :: rest, h =>
      unfold cropPolyRect at h
      have hr := (Option.some_inj.mp h).symm
      subst hr
      exact ⟨le_max_left 1 _, le_max_left 1 _⟩

/-- Witness for C9: a degenerate box (all corners coincident) makes the
axis-aligned path return the full 1000×500 frame, while the polygon path
on the same degenerate geometry keeps its one-pixel-clamped rectangle. -/
theorem c9_witness :
    cropRect ⟨⟨1/2, 1/2⟩, ⟨1/2, 1/2⟩, ⟨1/2, 1/2⟩, ⟨1/2, 1/2⟩⟩ 1000 500
      = ⟨0, 0, 1000, 500⟩ ∧
    (1 ≤ (1 : ℤ) ∧ 1 ≤ (1 : ℤ)) :=
  ⟨c9_degenerate_crop_amended.1 ⟨⟨1/2, 1/2⟩, ⟨1/2, 1/2⟩, ⟨1/2, 1/2⟩, ⟨1/2, 1/2⟩⟩
      1000 500 (by norm_num [cropRectRaw, min_def, max_def]),
   c9_degenerate_crop_amended.2 [⟨1/2, 1/2⟩, ⟨1/2, 1/2⟩, ⟨1/2, 1/2⟩] 1000 500
      ⟨500, 250, 1, 1⟩
      (by norm_num [cropPolyRect, listMin, listMax, min_def, max_def])⟩

/-- Counterexample for C9 as stated: on a degenerate polygon (all three
points coincident at (0.5, 0.5)) at a 1000×500 source, the polygon crop
path of CameraViewV3/CameraViewV2 produces the one-pixel rectangle
(500, 250, 1, 1), not the full frame (0, 0, 1000, 500) the claim requires
of every policy. -/
theorem c9_polygon_no_fullframe_fallback :
    cropPolyRect [⟨1/2, 1/2⟩, ⟨1/2, 1/2⟩, ⟨1/2, 1/2⟩] 1000 500
      = some ⟨500, 250, 1, 1⟩ ∧
    (⟨500, 250, 1, 1⟩ : Rect) ≠ ⟨0, 0, 1000, 500⟩ := by
  constructor
  · norm_num [cropPolyRect, listMin, listMax, min_def, max_def]
  · intro hEq
    exact absurd (congrArg Rect.sw hEq) (by norm_num)

/-! Claim C5. -/

lemma maxSubMin (a b : ℚ) : max a b - min a b = |a - b| := by
  rcases le_total a b with h | h
  · rw [max_eq_right h, min_eq_left h, abs_sub_comm, abs_of_nonneg (sub_nonneg.mpr h)]
  · rw [max_eq_left h, min_eq_right h, abs_of_nonneg (sub_nonneg.mpr h)]

/-- Modelled from the spec (claim C5 wording): the same-type pairing has
both distances below the contact threshold. -/
def sameContactA (Li Lt Ri Rt : Point) : Prop :=
  dist2 Li Ri < contactThreshA ^ 2 ∧ dist2 Lt Rt < contactThreshA ^ 2

/-- Modelled from the spec (claim C5 wording): the criss-cross pairing has
both distances below the contact threshold. -/
def crossContactA (Li Lt Ri Rt : Point) : Prop :=
  dist2 Li Rt < contactThreshA ^ 2 ∧ dist2 Lt Ri < contactThreshA ^ 2

instance (Li Lt Ri Rt : Point) : Decidable (sameContactA Li Lt Ri Rt) := by
  unfold sameContactA
  infer_instance

instance (Li Lt Ri Rt : Point) : Decidable (crossContactA Li Lt Ri Rt) := by
  unfold crossContactA
  infer_instance

/-- The midpoints of the matched pairs (the same-type pairing when it
matches, otherwise the criss-cross pairing). -/
def matchedCentersA (Li Lt Ri Rt : Point) : Point × Point :=
  if sameContactA Li Lt Ri Rt then (midp Li Ri, midp Lt Rt)
  else (midp Li Rt, midp Lt Ri)

/-- The axis-aligned box spanned by two center points, as corners. -/
def spanBox (c1 c2 : Point) : Corners :=
  ⟨⟨min c1.x c2.x, min c1.y c2.y⟩, ⟨max c1.x c2.x, min c1.y c2.y⟩,
   ⟨max c1.x c2.x, max c1.y c2.y⟩, ⟨min c1.x c2.x, max c1.y c2.y⟩⟩

/-- Claim C5: for hands that both expose an index fingertip and a thumb
tip, the Policy A builder is valid exactly when the same-type or
criss-cross pairing is in contact and the axis-aligned box spanned by the
matched pairs' midpoints exceeds the minimum size in both dimensions, and
then the returned corners are exactly that box's corners. -/
theorem c5_policyA_builder (i1 t1 i2 t2 : Point) (b1 b2 : Bool)
    (Li Lt Ri Rt : Point)
    (hord : orderByIndexX i1 t1 i2 t2 = ((Li, Lt), (Ri, Rt))) :
    ((computeDirectorFrameA ⟨some i1, some t1, b1⟩ ⟨some i2, some t2, b2⟩).valid = true ↔
      ((sameContactA Li Lt Ri Rt ∨ crossContactA Li Lt Ri Rt) ∧
        minSizeA < |(matchedCentersA Li Lt Ri Rt).1.x - (matchedCentersA Li Lt Ri Rt).2.x| ∧
        minSizeA < |(matchedCentersA Li Lt Ri Rt).1.y - (matchedCentersA Li Lt Ri Rt).2.y|)) ∧
    ((computeDirectorFrameA ⟨some i1, some t1, b1⟩ ⟨some i2, some t2, b2⟩).valid = true →
      (computeDirectorFrameA ⟨some i1, some t1, b1⟩ ⟨some i2, some t2, b2⟩).corners =
        some (spanBox (matchedCentersA Li Lt Ri Rt).1 (matchedCentersA Li Lt Ri Rt).2)) := by
  have hv : computeDirectorFrameA ⟨some i1, some t1, b1⟩ ⟨some i2, some t2, b2⟩
      = frameABody Li Lt Ri Rt := by
    simp only [computeDirectorFrameA, hord]
  rw [hv]
  simp only [frameABody, Bool.or_eq_true, Bool.and_eq_true, decide_eq_true_eq]
  unfold matchedCentersA sameContactA crossContactA spanBox
  by_cases hsame : dist2 Li Ri < contactThreshA ^ 2 ∧ dist2 Lt Rt < contactThreshA ^ 2
  · have hor : (dist2 Li Ri < contactThreshA ^ 2 ∧ dist2 Lt Rt < contactThreshA ^ 2) ∨
        (dist2 Li Rt < contactThreshA ^ 2 ∧ dist2 Lt Ri < contactThreshA ^ 2) := Or.inl hsame
    simp only [if_pos hsame, if_pos hor, maxSubMin, hor, true_and, if_true]
    split_ifs with hsize
    · simp [hsize]
    · simp [hsize]
  · by_cases hcross : dist2 Li Rt < contactThreshA ^ 2 ∧ dist2 Lt Ri < contactThreshA ^ 2
    · have hor : (dist2 Li Ri < contactThreshA ^ 2 ∧ dist2 Lt Rt < contactThreshA ^ 2) ∨
          (dist2 Li Rt < contactThreshA ^ 2 ∧ dist2 Lt Ri < contactThreshA ^ 2) := Or.inr hcross
      simp only [if_neg hsame, if_pos hor, maxSubMin, hor, true_and, if_true]
      split_ifs with hsize
      · simp [hsize]
      · simp [hsize]
    · have hor : ¬((dist2 Li Ri < contactThreshA ^ 2 ∧ dist2 Lt Rt < contactThreshA ^ 2) ∨
          (dist2 Li Rt < contactThreshA ^ 2 ∧ dist2 Lt Ri < contactThreshA ^ 2)) :=
        not_or.mpr ⟨hsame, hcross⟩
      simp [if_neg hsame, if_neg hor, hsame, hcross]

/-- Witness for C5: the concrete valid gesture of `obsA` satisfies the
characterization, and its corners are the box of the matched midpoints. -/
theorem c5_witness :
    (computeDirectorFrameA ⟨some ⟨3/10, 3/10⟩, some ⟨4/10, 4/10⟩, true⟩
        ⟨some ⟨34/100, 33/100⟩, some ⟨44/100, 43/100⟩, false⟩).corners =
      some (spanBox
        (matchedCentersA ⟨3/10, 3/10⟩ ⟨4/10, 4/10⟩ ⟨34/100, 33/100⟩ ⟨44/100, 43/100⟩).1
        (matchedCentersA ⟨3/10, 3/10⟩ ⟨4/10, 4/10⟩ ⟨34/100, 33/100⟩ ⟨44/100, 43/100⟩).2) :=
  (c5_policyA_builder ⟨3/10, 3/10⟩ ⟨4/10, 4/10⟩ ⟨34/100, 33/100⟩ ⟨44/100, 43/100⟩ true false
      ⟨3/10, 3/10⟩ ⟨4/10, 4/10⟩ ⟨34/100, 33/100⟩ ⟨44/100, 43/100⟩
      (by norm_num [orderByIndexX])).2
    (by norm_num [computeDirectorFrameA, orderByIndexX, frameABody, dist2, midp,
      contactThreshA, minSizeA, min_def, max_def])

/-! Claim C7. -/

lemma orderByIndexX_swap (i1 t1 i2 t2 : Point) :
    orderByIndexX i2 t2 i1 t1 = orderByIndexX i1 t1 i2 t2 ∨
    ((orderByIndexX i2 t2 i1 t1).1 = (orderByIndexX i1 t1 i2 t2).2 ∧
     (orderByIndexX i2 t2 i1 t1).2 = (orderByIndexX i1 t1 i2 t2).1) := by
  unfold orderByIndexX
  rcases lt_trichotomy i1.x i2.x with h | h | h
  · left
    rw [if_pos h, if_neg (not_lt.mpr h.le)]
  · right
    rw [if_neg (by rw [h]; exact lt_irrefl _), if_neg (by rw [h]; exact lt_irrefl _)]
    exact ⟨rfl, rfl⟩
  · left
    rw [if_neg (not_lt.mpr h.le), if_pos h]

lemma frameABody_swap (Li Lt Ri Rt : Point) :
    frameABody Ri Rt Li Lt = frameABody Li Lt Ri Rt := by
  simp only [frameABody]
  rw [dist2_comm Ri Li, dist2_comm Rt Lt, dist2_comm Ri Lt, dist2_comm Rt Li,
    midp_comm Ri Li, midp_comm Rt Lt, midp_comm Ri Lt, midp_comm Rt Li,
    Bool.and_comm (decide (dist2 Lt Ri < contactThreshA ^ 2))
      (decide (dist2 Li Rt < contactThreshA ^ 2))]
  by_cases hs : (decide (dist2 Li Ri < contactThreshA ^ 2)
      && decide (dist2 Lt Rt < contactThreshA ^ 2)) = true
  · rw [hs]
    simp
  · rw [Bool.not_eq_true] at hs
    rw [hs]
    simp only [Bool.false_or, Bool.false_eq_true, if_false]
    rw [min_comm ((midp Lt Ri).x) ((midp Li Rt).x),
      max_comm ((midp Lt Ri).x) ((midp Li Rt).x),
      min_comm ((midp Lt Ri).y) ((midp Li Rt).y),
      max_comm ((midp Lt Ri).y) ((midp Li Rt).y)]

lemma computeDirectorFrameA_swap (h1 h2 : Hand) :
    computeDirectorFrameA h2 h1 = computeDirectorFrameA h1 h2 := by
  obtain ⟨oi1, ot1, b1⟩ := h1
  obtain ⟨oi2, ot2, b2⟩ := h2
  cases oi1 <;> cases ot1 <;> cases oi2 <;> cases ot2 <;>
    simp only [computeDirectorFrameA] <;> try rfl
  case some.some.some.some i1 t1 i2 t2 =>
    rcases orderByIndexX_swap i1 t1 i2 t2 with h | ⟨ha, hb⟩
    · rw [h]
    · rw [ha, hb]
      exact frameABody_swap _ _ _ _

lemma frameBBody_swap_valid (Li Lt Ri Rt : Point) :
    (frameBBody Ri Rt Li Lt).valid = (frameBBody Li Lt Ri Rt).valid := by
  simp only [frameBBody]
  rw [abs_sub_comm Li.x Ri.x, min_comm Ri.y Li.y, max_comm Rt.y Lt.y]

lemma frameBBody_swap_bag (Li Lt Ri Rt : Point) :
    cornerBag (frameBBody Ri Rt Li Lt) = cornerBag (frameBBody Li Lt Ri Rt) := by
  simp only [frameBBody, cornerBag, cornerList]
  exact Multiset.coe_eq_coe.mpr
    (((List.Perm.swap Li Ri [Lt, Rt]).trans
      (((List.Perm.swap Rt Lt []).cons Ri).cons Li)))

lemma frameABody_count (Li Lt Ri Rt : Point)
    (h : (frameABody Li Lt Ri Rt).valid = true) :
    (cornerList (frameABody Li Lt Ri Rt)).length = 4 := by
  simp only [frameABody] at h ⊢
  split_ifs at h ⊢ <;> simp_all [cornerList]

lemma frameBBody_count (Li Lt Ri Rt : Point) :
    (cornerList (frameBBody Li Lt Ri Rt)).length = 4 := by
  simp [frameBBody, cornerList]

/-- Claim C7: exchanging the two hand observations leaves the Policy A
builder's output unchanged and leaves the Policy B builder's validity
flag and corner multiset unchanged; the output ignores the detector's
handedness label; the chosen visual-left hand has the smaller
index-fingertip x; and a valid result always carries exactly 4 corner
points. -/
theorem c7_order_invariance :
    (∀ h1 h2 : Hand, computeDirectorFrameA h1 h2 = computeDirectorFrameA h2 h1) ∧
    (∀ h1 h2 : Hand,
      (computeDirectorFrameB h1 h2).valid = (computeDirectorFrameB h2 h1).valid ∧
      cornerBag (computeDirectorFrameB h1 h2) = cornerBag (computeDirectorFrameB h2 h1)) ∧
    (∀ i1 t1 i2 t2 : Point, ∀ a1 a2 b1 b2 : Bool,
      computeDirectorFrameA ⟨some i1, some t1, a1⟩ ⟨some i2, some t2, b1⟩
        = computeDirectorFrameA ⟨some i1, some t1, a2⟩ ⟨some i2, some t2, b2⟩ ∧
      computeDirectorFrameB ⟨some i1, some t1, a1⟩ ⟨some i2, some t2, b1⟩
        = computeDirectorFrameB ⟨some i1, some t1, a2⟩ ⟨some i2, some t2, b2⟩) ∧
    (∀ i1 t1 i2 t2 : Point,
      (orderByIndexX i1 t1 i2 t2).1.1.x ≤ (orderByIndexX i1 t1 i2 t2).2.1.x) ∧
    (∀ h1 h2 : Hand, (computeDirectorFrameA h1 h2).valid = true →
      (cornerList (computeDirectorFrameA h1 h2)).length = 4) ∧
    (∀ h1 h2 : Hand, (computeDirectorFrameB h1 h2).valid = true →
      (cornerList (computeDirectorFrameB h1 h2)).length = 4) := by
  refine ⟨?_, ?_, ?_, ?_, ?_, ?_⟩
  · exact fun h1 h2 => (computeDirectorFrameA_swap h1 h2).symm
  · intro h1 h2
    obtain ⟨oi1, ot1, b1⟩ := h1
    obtain ⟨oi2, ot2, b2⟩ := h2
    cases oi1 <;> cases ot1 <;> cases oi2 <;> cases ot2 <;>
      simp only [computeDirectorFrameB] <;> try exact ⟨trivial, trivial⟩
    case some.some.some.some i1 t1 i2 t2 =>
      rcases orderByIndexX_swap i1 t1 i2 t2 with h | ⟨ha, hb⟩
      · rw [h]
        exact ⟨rfl, rfl⟩
      · rw [ha, hb]
        exact ⟨(frameBBody_swap_valid _ _ _ _).symm, (frameBBody_swap_bag _ _ _ _).symm⟩
  · intro i1 t1 i2 t2 a1 a2 b1 b2
    exact ⟨rfl, rfl⟩
  · intro i1 t1 i2 t2
    unfold orderByIndexX
    split_ifs with h
    · exact h.le
    · exact not_lt.mp h
  · intro h1 h2 hv
    obtain ⟨oi1, ot1, b1⟩ := h1
    obtain ⟨oi2, ot2, b2⟩ := h2
    cases oi1 <;> cases ot1 <;> cases oi2 <;> cases ot2 <;>
      first
        | exact frameABody_count _ _ _ _ hv
        | simp [computeDirectorFrameA] at hv
  · intro h1 h2 hv
    obtain ⟨oi1, ot1, b1⟩ := h1
    obtain ⟨oi2, ot2, b2⟩ := h2
    cases oi1 <;> cases ot1 <;> cases oi2 <;> cases ot2 <;>
      first
        | exact frameBBody_count _ _ _ _
        | simp [computeDirectorFrameB] at hv

/-- Witness for c7_order_invariance: the concrete valid observation pair
`handA1`/`handA2` discharges the validity hypothesis of the corner-count
conjunct, and its corner list indeed has 4 points. -/
theorem c7_witness :
    (computeDirectorFrameA handA1 handA2).valid = true ∧
    (cornerList (computeDirectorFrameA handA1 handA2)).length = 4 := by
  have hv : (computeDirectorFrameA handA1 handA2).valid = true := by
    norm_num [computeDirectorFrameA, orderByIndexX, frameABody, dist2, midp,
      contactThreshA, minSizeA, min_def, max_def, handA1, handA2]
  exact ⟨hv, c7_order_invariance.2.2.2.2.1 handA1 handA2 hv⟩

/-! Claim C6. -/

/-- Claim C6 (amended): once armed and idle, the per-side displacement
sequence [0, +0.03, +0.01, −0.03] fires exactly one capture-qualifying
edge when delivered within the 350 ms twitch window, and fires no edge
when the upward return comes more than 350 ms after the qualifying
downward step (the timeout returns the side to idle); the timeout window
is measured from the downward trigger, not from the start of the
sequence. -/
theorem c6_twitch_window_amended (t1 t2 t3 t4 y0 : ℚ)
    (h12 : t1 < t2) (h23 : t2 < t3) (h34 : t3 < t4) :
    (t4 - t1 ≤ twitchWindowMs →
      (runTwitch twitchInit y0
        [(t1, y0), (t2, y0 + 3/100), (t3, y0 + 4/100), (t4, y0 + 1/100)]).2 = 1) ∧
    (twitchWindowMs < t4 - t2 →
      (runTwitch twitchInit y0
        [(t1, y0), (t2, y0 + 3/100), (t3, y0 + 4/100), (t4, y0 + 1/100)]).2 = 0) := by
  have h1 : processSide twitchInit t1 y0 y0 = (twitchInit, false) := by
    norm_num [processSide, twitchInit, instDownVel]
  have h2 : processSide twitchInit t2 (y0 + 3/100) y0
      = (⟨true, y0, y0 + 3/100, true, t2⟩, false) := by
    norm_num [processSide, twitchInit, instDownVel, downAmp]
  constructor
  · intro hfast
    have hfast' : t4 - t1 ≤ 350 := by simpa [twitchWindowMs] using hfast
    have h3 : processSide ⟨true, y0, y0 + 3/100, true, t2⟩ t3 (y0 + 4/100) (y0 + 3/100)
        = (⟨true, y0, y0 + 4/100, true, t2⟩, false) := by
      norm_num [processSide, twitchWindowMs, upAmp, downAmp, max_def,
        show ¬(350 < t3 - t2) from by push_neg; linarith]
    have h4 : processSide ⟨true, y0, y0 + 4/100, true, t2⟩ t4 (y0 + 1/100) (y0 + 4/100)
        = (⟨false, y0, y0 + 4/100, true, t2⟩, true) := by
      norm_num [processSide, twitchWindowMs, upAmp, downAmp, max_def,
        show ¬(350 < t4 - t2) from by push_neg; linarith]
    simp only [runTwitch, h1, h2, h3, h4]
    simp
  · intro hslow
    have hslow' : 350 < t4 - t2 := by simpa [twitchWindowMs] using hslow
    rcases le_or_lt (t3 - t2) 350 with h3le | h3gt
    · have h3 : processSide ⟨true, y0, y0 + 3/100, true, t2⟩ t3 (y0 + 4/100) (y0 + 3/100)
          = (⟨true, y0, y0 + 4/100, true, t2⟩, false) := by
        norm_num [processSide, twitchWindowMs, upAmp, downAmp, max_def,
          show ¬(350 < t3 - t2) from by push_neg; linarith]
      have h4 : processSide ⟨true, y0, y0 + 4/100, true, t2⟩ t4 (y0 + 1/100) (y0 + 4/100)
          = (⟨false, y0, y0 + 4/100, true, t2⟩, false) := by
        norm_num [processSide, twitchWindowMs,
          show 350 < t4 - t2 from by linarith]
      simp only [runTwitch, h1, h2, h3, h4]
      simp
    · have h3 : processSide ⟨true, y0, y0 + 3/100, true, t2⟩ t3 (y0 + 4/100) (y0 + 3/100)
          = (⟨false, y0, y0 + 3/100, true, t2⟩, false) := by
        norm_num [processSide, twitchWindowMs,
          show 350 < t3 - t2 from by linarith]
      have h4 : processSide ⟨false, y0, y0 + 3/100, true, t2⟩ t4 (y0 + 1/100) (y0 + 4/100)
          = (⟨false, y0, y0 + 3/100, true, t2⟩, false) := by
        norm_num [processSide, instDownVel]
      simp only [runTwitch, h1, h2, h3, h4]
      simp

/-- Witness for C6: the sequence delivered at 0, 100, 200, 300 ms (within
the window) fires exactly one edge. -/
theorem c6_witness :
    (runTwitch twitchInit (1/2)
      [(0, 1/2), (100, 1/2 + 3/100), (200, 1/2 + 4/100), (300, 1/2 + 1/100)]).2 = 1 :=
  (c6_twitch_window_amended 0 100 200 300 (1/2) (by norm_num) (by norm_num)
    (by norm_num)).1 (by norm_num [twitchWindowMs])

/-- Counterexample for C6 as stated: the same displacement sequence spread
over 399 ms — more than the 350 ms twitch window — still fires one edge,
because the down phase only starts at the second sample (140 ms) and the
upward return at 399 ms falls within 350 ms of it. -/
theorem c6_slow_sequence_still_fires :
    twitchWindowMs < 399 - 0 ∧
    (runTwitch twitchInit (1/2)
      [(0, 1/2), (140, 53/100), (270, 54/100), (399, 51/100)]).2 = 1 := by
  constructor
  · norm_num [twitchWindowMs]
  · norm_num [runTwitch, processSide, twitchInit, instDownVel, downAmp, upAmp,
      twitchWindowMs, max_def]

/-! Claim C3. -/

/-- Claim C3 (amended): when the builder yields corners the smoother
appends them, evicts the oldest entry beyond capacity (3 for Policy A, 2
for Policy B) and emits the corner-wise arithmetic mean of the retained
entries; Policy B appends whatever corners the builder yields whether or
not the validity flag is set.  When the builder yields no corners the
history is left unchanged — it is never cleared. -/
theorem c3_smoother_amended (f : ℚ → ℚ → ℚ) (w h : ℚ) (s : StateA)
    (sb : StateB) (now : ℚ) (h1 h2 : Hand) (rest : List Hand) (c : Corners) :
    ((computeDirectorFrameA h1 h2).corners = some c →
      (tickA f w h s now (h1 :: h2 :: rest)).hist = pushEvict s.hist c 3 ∧
      (tickA f w h s now (h1 :: h2 :: rest)).currentCorners
        = some (averageCorners (pushEvict s.hist c 3))) ∧
    ((computeDirectorFrameA h1 h2).corners = none →
      (tickA f w h s now (h1 :: h2 :: rest)).hist = s.hist) ∧
    ((computeDirectorFrameB h1 h2).corners = some c →
      (tickB sb now (h1 :: h2 :: rest)).hist = pushEvict sb.hist c 2 ∧
      (tickB sb now (h1 :: h2 :: rest)).currentCorners
        = some (averageCorners (pushEvict sb.hist c 2))) ∧
    ((computeDirectorFrameB h1 h2).corners = none →
      (tickB sb now (h1 :: h2 :: rest)).hist = sb.hist) := by
  refine ⟨?_, ?_, ?_, ?_⟩
  · intro hc
    simp only [tickA, hc]
    split_ifs <;> exact ⟨rfl, rfl⟩
  · intro hc
    simp only [tickA, hc]
  · intro hc
    simp only [tickB, hc]
    split_ifs <;> exact ⟨rfl, rfl⟩
  · intro hc
    simp only [tickB, hc]

/-- Witness for C3: the first motionless tick appends the candidate
corners to the empty history and emits their average. -/
theorem c3_witness :
    (tickA hypotAx 100 100 initA 0 (handA1 :: handA2 :: [])).hist
        = pushEvict initA.hist cornersA0 3 ∧
    (tickA hypotAx 100 100 initA 0 (handA1 :: handA2 :: [])).currentCorners
        = some (averageCorners (pushEvict initA.hist cornersA0 3)) :=
  (c3_smoother_amended hypotAx 100 100 initA initB 0 handA1 handA2 [] cornersA0).1
    (by norm_num [computeDirectorFrameA, orderByIndexX, frameABody, dist2, midp,
      handA1, handA2, contactThreshA, minSizeA, cornersA0, min_def, max_def])

/-- Counterexample for C3 as stated: a tick whose builder yields no valid
corners (fingertips far apart) leaves the Policy A history untouched —
the stale candidate from the previous tick survives instead of the
history being cleared. -/
theorem c3_history_not_cleared :
    (computeDirectorFrameA handFar1 handFar2).corners = none ∧
    (runA hypotAx 100 100 initA [(0, obsA), (50, [handFar1, handFar2])]).hist
      = [cornersA0] ∧
    ([cornersA0] : List Corners) ≠ [] := by
  refine ⟨?_, ?_, by simp⟩
  · norm_num [computeDirectorFrameA, orderByIndexX, frameABody, dist2, midp,
      handFar1, handFar2, contactThreshA, minSizeA, min_def, max_def]
  · norm_num [runA, tickA, initA, obsA, handA1, handA2, handFar1, handFar2,
      computeDirectorFrameA, orderByIndexX, frameABody, dist2, midp, contactThreshA,
      minSizeA, cornersA0, pushEvict, averageCorners, addCorners, zeroCorners,
      stableA, dpix, hypotAx, dwellStep, falsyTime, autoCaptureMs,
      abs_of_nonneg, abs_of_nonpos, min_def, max_def]

/-! Claim C4. -/

lemma dwellStep_capture (now : ℚ) (st : Bool) (since : Option ℚ) (caps : List ℚ)
    (h : (dwellStep now st since caps).2 ≠ caps) :
    ∃ u, since = some u ∧ u ≠ 0 ∧ autoCaptureMs ≤ now - u ∧ st = true ∧
      (dwellStep now st since caps).1 = none ∧
      (dwellStep now st since caps).2 = caps ++ [now] := by
  unfold dwellStep at h ⊢
  cases st with
  | false =>
    simp at h
  | true =>
    cases since with
    | none =>
      by_cases hn : now = 0
      · simp [falsyTime, hn] at h
      · have hz : ¬(autoCaptureMs ≤ (0:ℚ)) := by norm_num [autoCaptureMs]
        simp [falsyTime, hn, hz] at h
    | some u =>
      by_cases hu : u = 0
      · subst hu
        by_cases hn : now = 0
        · simp [falsyTime, hn] at h
        · have hz : ¬(autoCaptureMs ≤ (0:ℚ)) := by norm_num [autoCaptureMs]
          simp [falsyTime, hn, hz] at h
      · by_cases hcap : autoCaptureMs ≤ now - u
        · exact ⟨u, rfl, hu, hcap, rfl, by simp [falsyTime, hu, hcap],
            by simp [falsyTime, hu, hcap]⟩
        · simp [falsyTime, hu, hcap] at h

lemma computeDirectorFrameA_corners_valid (h1 h2 : Hand) (c : Corners)
    (hc : (computeDirectorFrameA h1 h2).corners = some c) :
    (computeDirectorFrameA h1 h2).valid = true := by
  obtain ⟨oi1, ot1, b1⟩ := h1
  obtain ⟨oi2, ot2, b2⟩ := h2
  cases oi1 <;> cases ot1 <;> cases oi2 <;> cases ot2 <;>
    first
      | (simp only [computeDirectorFrameA, frameABody] at hc ⊢
         split_ifs at hc ⊢ <;> simp_all)
      | simp [computeDirectorFrameA] at hc

/-- Claim C4 (amended): the dwell time is `AUTO_CAPTURE_MS` = 300 ms, not
≈100 ms.  A Policy A capture fires only when the tick is valid and
classified stable, the dwell start `stableSince` was set at an earlier
tick, and at least 300 ms have elapsed since it; any tick classified
unstable clears the dwell start; and the motionless trace (same valid
two-hand observation every 50 ms) captures nothing through 250 ms —
although stability is established at 100 ms — and captures exactly once,
at 400 ms, i.e. 300 ms after the dwell start. -/
theorem c4_dwell_amended :
    (∀ (f : ℚ → ℚ → ℚ) (w hgt : ℚ) (s : StateA) (now : ℚ) (h1 h2 : Hand)
        (rest : List Hand),
      (tickA f w hgt s now (h1 :: h2 :: rest)).captures ≠ s.captures →
      ∃ c u, (computeDirectorFrameA h1 h2).corners = some c ∧
        (computeDirectorFrameA h1 h2).valid = true ∧
        stableA f w hgt (pushEvict s.hist c 3) = true ∧
        s.since = some u ∧ u ≠ 0 ∧ autoCaptureMs ≤ now - u ∧
        (tickA f w hgt s now (h1 :: h2 :: rest)).captures = s.captures ++ [now] ∧
        (tickA f w hgt s now (h1 :: h2 :: rest)).since = none) ∧
    (∀ (f : ℚ → ℚ → ℚ) (w hgt : ℚ) (s : StateA) (now : ℚ) (h1 h2 : Hand)
        (rest : List Hand) (c : Corners),
      (computeDirectorFrameA h1 h2).corners = some c →
      stableA f w hgt (pushEvict s.hist c 3) = false →
      (tickA f w hgt s now (h1 :: h2 :: rest)).since = none) ∧
    (runA hypotAx 100 100 initA traceA250).captures = [] ∧
    (runA hypotAx 100 100 initA traceA400).captures = [400] := by
  refine ⟨?_, ?_, ?_, ?_⟩
  · intro f w hgt s now h1 h2 rest hne
    rcases hc : (computeDirectorFrameA h1 h2).corners with _ | c
    · simp [tickA, hc] at hne
    · have hval := computeDirectorFrameA_corners_valid h1 h2 c hc
      have hne2 : (dwellStep now (stableA f w hgt (pushEvict s.hist c 3))
          s.since s.captures).2 ≠ s.captures := by
        simpa [tickA, hc, hval] using hne
      obtain ⟨u, hsu, hu0, hle, hst, hd1, hd2⟩ := dwellStep_capture _ _ _ _ hne2
      exact ⟨c, u, rfl, hval, hst, hsu, hu0, hle,
        by simp [tickA, hc, hval, hd2], by simp [tickA, hc, hval, hd1]⟩
  · intro f w hgt s now h1 h2 rest c hc hst
    have hval := computeDirectorFrameA_corners_valid h1 h2 c hc
    simp [tickA, hc, hval, dwellStep, hst]
  · norm_num [runA, tickA, initA, traceA250, obsA, handA1, handA2,
      computeDirectorFrameA, orderByIndexX, frameABody, dist2, midp, contactThreshA,
      minSizeA, pushEvict, averageCorners, addCorners, zeroCorners,
      stableA, dpix, hypotAx, dwellStep, falsyTime, autoCaptureMs,
      abs_of_nonneg, abs_of_nonpos, min_def, max_def]
  · norm_num [runA, tickA, initA, traceA400, traceA250, obsA, handA1, handA2,
      computeDirectorFrameA, orderByIndexX, frameABody, dist2, midp, contactThreshA,
      minSizeA, pushEvict, averageCorners, addCorners, zeroCorners,
      stableA, dpix, hypotAx, dwellStep, falsyTime, autoCaptureMs,
      abs_of_nonneg, abs_of_nonpos, min_def, max_def]

/-- Witness for C4: at the 400 ms tick of the motionless trace the
capture fires, and the theorem recovers the dwell start at 100 ms with
the full 300 ms dwell elapsed. -/
theorem c4_witness :
    ∃ c u, (computeDirectorFrameA handA1 handA2).corners = some c ∧
      (computeDirectorFrameA handA1 handA2).valid = true ∧
      stableA hypotAx 100 100
        (pushEvict (runA hypotAx 100 100 initA traceA350).hist c 3) = true ∧
      (runA hypotAx 100 100 initA traceA350).since = some u ∧ u ≠ 0 ∧
      autoCaptureMs ≤ 400 - u ∧
      (tickA hypotAx 100 100 (runA hypotAx 100 100 initA traceA350) 400
          (handA1 :: handA2 :: [])).captures
        = (runA hypotAx 100 100 initA traceA350).captures ++ [400] ∧
      (tickA hypotAx 100 100 (runA hypotAx 100 100 initA traceA350) 400
          (handA1 :: handA2 :: [])).since = none :=
  c4_dwell_amended.1 hypotAx 100 100 (runA hypotAx 100 100 initA traceA350) 400
    handA1 handA2 []
    (by norm_num [runA, tickA, initA, traceA350, traceA250, obsA, handA1, handA2,
      computeDirectorFrameA, orderByIndexX, frameABody, dist2, midp, contactThreshA,
      minSizeA, pushEvict, averageCorners, addCorners, zeroCorners,
      stableA, dpix, hypotAx, dwellStep, falsyTime, autoCaptureMs,
      abs_of_nonneg, abs_of_nonpos, min_def, max_def])

/-- Counterexample for C4 as stated: in the motionless trace the gesture
is valid and classified stable continuously from 100 ms on, so by 250 ms
it has been stable for 150 ms — well beyond the claimed ≈100 ms dwell —
yet no capture has fired (the code's dwell constant is 300 ms). -/
theorem c4_no_capture_after_claimed_dwell :
    (runA hypotAx 100 100 initA traceA250).since = some 100 ∧
    (runA hypotAx 100 100 initA traceA250).captures = [] ∧
    (100 : ℚ) < 250 - 100 := by
  refine ⟨?_, ?_, by norm_num⟩ <;>
    norm_num [runA, tickA, initA, traceA250, obsA, handA1, handA2,
      computeDirectorFrameA, orderByIndexX, frameABody, dist2, midp, contactThreshA,
      minSizeA, pushEvict, averageCorners, addCorners, zeroCorners,
      stableA, dpix, hypotAx, dwellStep, falsyTime, autoCaptureMs,
      abs_of_nonneg, abs_of_nonpos, min_def, max_def]

/-! Claim C2. -/

lemma apartC_exists (f : ℚ → ℚ → ℚ) (coarse : Bool) (s : StateC)
    (Li Lt Ri Rt : Point) (h : apartC f coarse s Li Lt Ri Rt = true) :
    ∃ d ∈ tipDistsC f Li Lt Ri Rt, releaseThreshC f coarse s Li Lt Ri Rt < d := by
  simp only [apartC, releaseThreshC, tipDistsC, Bool.or_eq_true, decide_eq_true_eq] at h ⊢
  rcases h with ((h | h) | h) | h
  · exact ⟨distF f Li Ri, by simp, h⟩
  · exact ⟨distF f Lt Rt, by simp, h⟩
  · exact ⟨distF f Li Rt, by simp, h⟩
  · exact ⟨distF f Lt Ri, by simp, h⟩

lemma apartC_false (f : ℚ → ℚ → ℚ) (coarse : Bool) (s : StateC)
    (Li Lt Ri Rt : Point)
    (hall : ∀ d ∈ tipDistsC f Li Lt Ri Rt, d ≤ releaseThreshC f coarse s Li Lt Ri Rt) :
    apartC f coarse s Li Lt Ri Rt = false := by
  cases hap : apartC f coarse s Li Lt Ri Rt with
  | false => rfl
  | true =>
    obtain ⟨d, hd, hlt⟩ := apartC_exists f coarse s Li Lt Ri Rt hap
    exact absurd (hall d hd) (not_le.mpr hlt)

/-- Claim C2 (amended): on a Policy C two-hand tick with contact
established, the contact state (the contact-start timestamp) clears only
when a capture fires on that tick or when touching fails and at least one
of the FOUR pairwise tip distances — not necessarily a qualifying one —
exceeds the release threshold (contact threshold × 1.4); it is retained
whenever all four pairwise distances stay at or below the release
threshold and no capture fires.  There is no persistent `touching`
boolean: the per-tick touching test always uses the tight contact
threshold, and the hysteresis only protects the contact-start
timestamp. -/
theorem c2_contact_hysteresis_amended (f : ℚ → ℚ → ℚ) (coarse : Bool)
    (s : StateC) (now : ℚ) (Li Lt Ri Rt : Point) (u : ℚ)
    (hcs : s.contactSince = some u) :
    ((twoHandStepC f coarse s now Li Lt Ri Rt).contactSince = none →
      (twoHandStepC f coarse s now Li Lt Ri Rt).captures ≠ s.captures ∨
      ∃ d ∈ tipDistsC f Li Lt Ri Rt, releaseThreshC f coarse s Li Lt Ri Rt < d) ∧
    ((∀ d ∈ tipDistsC f Li Lt Ri Rt, d ≤ releaseThreshC f coarse s Li Lt Ri Rt) →
      (twoHandStepC f coarse s now Li Lt Ri Rt).captures = s.captures →
      (twoHandStepC f coarse s now Li Lt Ri Rt).contactSince = some u) := by
  simp only [twoHandStepC, hcs]
  by_cases ht : touchingC f coarse s Li Lt Ri Rt = true
  · simp only [ht, if_true]
    split_ifs <;>
      first
        | exact ⟨fun _ => Or.inl (append_singleton_ne _ _),
            fun _ hbad => absurd hbad (append_singleton_ne _ _)⟩
        | exact ⟨fun hnone => absurd hnone (by simp), fun _ _ => rfl⟩
  · simp only [Bool.not_eq_true] at ht
    simp only [ht, Bool.false_eq_true, if_false]
    by_cases hap : apartC f coarse s Li Lt Ri Rt = true
    · refine ⟨fun _ => Or.inr (apartC_exists f coarse s Li Lt Ri Rt hap), ?_⟩
      intro hall _
      exact absurd (apartC_false f coarse s Li Lt Ri Rt hall) (by simp [hap])
    · simp only [Bool.not_eq_true] at hap
      simp only [hap, Bool.false_eq_true, if_false]
      exact ⟨fun hnone => absurd hnone (by simp), fun _ _ => by trivial⟩

/-- Witness for C2: at the second tick of the band counterexample the
cleared contact state is indeed licensed by a cross-pair distance above
the release threshold. -/
theorem c2_witness :
    (twoHandStepC hypotAx false stateC1 50
        ⟨1/2, 3/10⟩ ⟨1/2, 2/5⟩ ⟨1/2, 67/200⟩ ⟨1/2, 87/200⟩).captures
      ≠ stateC1.captures ∨
    ∃ d ∈ tipDistsC hypotAx ⟨1/2, 3/10⟩ ⟨1/2, 2/5⟩ ⟨1/2, 67/200⟩ ⟨1/2, 87/200⟩,
      releaseThreshC hypotAx false stateC1
        ⟨1/2, 3/10⟩ ⟨1/2, 2/5⟩ ⟨1/2, 67/200⟩ ⟨1/2, 87/200⟩ < d :=
  (c2_contact_hysteresis_amended hypotAx false stateC1 50
    ⟨1/2, 3/10⟩ ⟨1/2, 2/5⟩ ⟨1/2, 67/200⟩ ⟨1/2, 87/200⟩ 0
    (by norm_num [stateC1, tickC, twoHandStepC, touchingC, apartC, contactThreshOfC,
      contactThreshC, emaNextC, distF, hypotAx, clamp, contactScale, contactMin,
      contactMax, contactHoldMs, contactReleaseMult, minTimeBetweenCapturesMs,
      contactMobileBoost, jitterEmaAlpha, jitterGain, minSpanC, initC, handCL,
      handCR1, orderByIndexX, List.filter, abs_of_nonneg, abs_of_nonpos,
      min_def, max_def])).1
    (by norm_num [stateC1, tickC, twoHandStepC, touchingC, apartC, contactThreshOfC,
      contactThreshC, emaNextC, distF, hypotAx, clamp, contactScale, contactMin,
      contactMax, contactHoldMs, contactReleaseMult, minTimeBetweenCapturesMs,
      contactMobileBoost, jitterEmaAlpha, jitterGain, minSpanC, initC, handCL,
      handCR1, orderByIndexX, List.filter, abs_of_nonneg, abs_of_nonpos,
      min_def, max_def])

/-- Counterexample for C2 as stated: contact is established at tick 1
(all qualifying distances below the threshold), and at tick 2 the
qualifying same-type distances (7/200) lie strictly between the adaptive
contact threshold (107/4000) and the release threshold (749/20000 =
1.4 × threshold) — inside the claimed hysteresis band — yet the contact
state clears, because the release check also tests the cross-pair
distances (27/200, 13/200), which exceed the release threshold. -/
theorem c2_hysteresis_cleared_in_band :
    stateC1.contactSince = some 0 ∧
    (tickC hypotAx false stateC1 50 [handCL, handCR2]).contactSince = none ∧
    tipDistsC hypotAx ⟨1/2, 3/10⟩ ⟨1/2, 2/5⟩ ⟨1/2, 67/200⟩ ⟨1/2, 87/200⟩
      = [7/200, 7/200, 27/200, 13/200] ∧
    contactThreshOfC hypotAx false stateC1
      ⟨1/2, 3/10⟩ ⟨1/2, 2/5⟩ ⟨1/2, 67/200⟩ ⟨1/2, 87/200⟩ = 107/4000 ∧
    releaseThreshC hypotAx false stateC1
      ⟨1/2, 3/10⟩ ⟨1/2, 2/5⟩ ⟨1/2, 67/200⟩ ⟨1/2, 87/200⟩ = 749/20000 ∧
    (107/4000 : ℚ) < 7/200 ∧ (7/200 : ℚ) ≤ 749/20000 := by
  norm_num [stateC1, tickC, twoHandStepC, touchingC, apartC, contactThreshOfC,
    contactThreshC, emaNextC, distF, hypotAx, clamp, contactScale, contactMin,
    contactMax, contactHoldMs, contactReleaseMult, minTimeBetweenCapturesMs,
    contactMobileBoost, jitterEmaAlpha, jitterGain, minSpanC, initC, handCL,
    handCR1, handCR2, releaseThreshC, tipDistsC, orderByIndexX, List.filter,
    abs_of_nonneg, abs_of_nonpos, min_def, max_def]

/-! Claim C10. -/

/-- Claim C10: the adaptive contact threshold of Policy C —
clamp(avgSpan·CONTACT_SCALE·deviceBoost + jitterEMA·JITTER_GAIN,
CONTACT_MIN, CONTACT_MAX) — lies in [0.005, 0.05] for every hand span,
jitter EMA and device class, and hence the release threshold
(1.4 × threshold) lies in [0.007, 0.07]. -/
theorem c10_threshold_bounds (coarse : Bool) (avgSpan ema : ℚ) :
    contactMin ≤ contactThreshC coarse avgSpan ema ∧
    contactThreshC coarse avgSpan ema ≤ contactMax ∧
    7 / 1000 ≤ contactThreshC coarse avgSpan ema * contactReleaseMult ∧
    contactThreshC coarse avgSpan ema * contactReleaseMult ≤ 7 / 100 := by
  have hlo : contactMin ≤ contactThreshC coarse avgSpan ema := le_max_left _ _
  have hhi : contactThreshC coarse avgSpan ema ≤ contactMax :=
    max_le (by norm_num [contactMin, contactMax]) (min_le_left _ _)
  refine ⟨hlo, hhi, ?_, ?_⟩
  · have := mul_le_mul_of_nonneg_right hlo (by norm_num [contactReleaseMult] : (0:ℚ) ≤ contactReleaseMult)
    calc (7 : ℚ) / 1000 = contactMin * contactReleaseMult := by
          norm_num [contactMin, contactReleaseMult]
      _ ≤ contactThreshC coarse avgSpan ema * contactReleaseMult := this
  · have := mul_le_mul_of_nonneg_right hhi (by norm_num [contactReleaseMult] : (0:ℚ) ≤ contactReleaseMult)
    calc contactThreshC coarse avgSpan ema * contactReleaseMult
        ≤ contactMax * contactReleaseMult := this
      _ = 7 / 100 := by norm_num [contactMax, contactReleaseMult]

lemma chain'_append_singleton (R : ℚ → ℚ → Prop) (l : List ℚ) (a : ℚ)
    (hch : List.Chain' R l) (hlast : ∀ x ∈ l, R x a) :
    List.Chain' R (l ++ [a]) := by
  rw [List.chain'_append]
  refine ⟨hch, List.chain'_singleton a, ?_⟩
  intro x hx y hy
  have hxl : x ∈ l := by
    obtain ⟨h, hx'⟩ := List.mem_getLast?_eq_getLast hx
    exact hx' ▸ List.getLast_mem h
  have hya : a = y := by simpa using hy
  exact hya ▸ hlast x hxl

/-- Invariant tying a CameraView state to a wall-clock bound `b`:
recorded captures are at least `AUTO_CAPTURE_MS` apart, none is later
than `b`, and a pending dwell start is no later than `b` and strictly
later than every recorded capture. -/
def InvA (b : ℚ) (s : StateA) : Prop :=
  List.Chain' (fun a c => a + autoCaptureMs ≤ c) s.captures ∧
  (∀ t ∈ s.captures, t ≤ b) ∧
  ∀ u, s.since = some u → u ≤ b ∧ ∀ t ∈ s.captures, t < u

lemma InvA_mono (b b' : ℚ) (s : StateA) (h : InvA b s) (hb : b ≤ b') :
    InvA b' s :=
  ⟨h.1, fun t ht => (h.2.1 t ht).trans hb,
   fun u hu => ⟨(h.2.2 u hu).1.trans hb, (h.2.2 u hu).2⟩⟩

lemma dwellStep_inv (b now : ℚ) (st : Bool) (since : Option ℚ) (caps : List ℚ)
    (hb : b < now)
    (hch : List.Chain' (fun a c => a + autoCaptureMs ≤ c) caps)
    (hle : ∀ t ∈ caps, t ≤ b)
    (hsince : ∀ u, since = some u → u ≤ b ∧ ∀ t ∈ caps, t < u) :
    List.Chain' (fun a c => a + autoCaptureMs ≤ c) (dwellStep now st since caps).2 ∧
    (∀ t ∈ (dwellStep now st since caps).2, t ≤ now) ∧
    ∀ u, (dwellStep now st since caps).1 = some u →
      u ≤ now ∧ ∀ t ∈ (dwellStep now st since caps).2, t < u := by
  have hall : ∀ t ∈ caps, t < now := fun t ht => lt_of_le_of_lt (hle t ht) hb
  have hlenow : ∀ t ∈ caps, t ≤ now := fun t ht => (hall t ht).le
  cases st with
  | false =>
    have heq : dwellStep now false since caps = (none, caps) := by
      cases since <;> simp [dwellStep, falsyTime]
    rw [heq]
    refine ⟨hch, hlenow, fun u hu => ?_⟩
    simp at hu
  | true =>
    cases since with
    | none =>
      have heq : dwellStep now true none caps = (some now, caps) := by
        by_cases hn : now = 0
        · simp [dwellStep, falsyTime, hn]
        · have hz : ¬(autoCaptureMs ≤ now - now) := by norm_num [autoCaptureMs]
          simp [dwellStep, falsyTime, hn, hz]
          norm_num [autoCaptureMs]
      rw [heq]
      refine ⟨hch, hlenow, fun u hu => ?_⟩
      obtain rfl : now = u := Option.some.inj hu
      exact ⟨le_refl _, hall⟩
    | some u0 =>
      obtain ⟨hub, hlt⟩ := hsince u0 rfl
      by_cases hu : u0 = 0
      · subst hu
        have heq : dwellStep now true (some 0) caps = (some now, caps) := by
          by_cases hn : now = 0
          · simp [dwellStep, falsyTime, hn]
          · have hz : ¬(autoCaptureMs ≤ now - now) := by norm_num [autoCaptureMs]
            simp [dwellStep, falsyTime, hn, hz]
            norm_num [autoCaptureMs]
        rw [heq]
        refine ⟨hch, hlenow, fun u hu2 => ?_⟩
        obtain rfl : now = u := Option.some.inj hu2
        exact ⟨le_refl _, hall⟩
      · by_cases hcap : autoCaptureMs ≤ now - u0
        · have heq : dwellStep now true (some u0) caps = (none, caps ++ [now]) := by
            simp [dwellStep, falsyTime, hu, hcap]
          rw [heq]
          refine ⟨?_, ?_, fun u hu2 => ?_⟩
          · exact chain'_append_singleton _ _ _ hch
              (fun x hx => by have := hlt x hx; linarith)
          · intro t ht
            rcases List.mem_append.mp ht with h | h
            · exact hlenow t h
            · simp at h
              exact h.le
          · simp at hu2
        · have heq : dwellStep now true (some u0) caps = (some u0, caps) := by
            simp [dwellStep, falsyTime, hu, hcap]
          rw [heq]
          refine ⟨hch, hlenow, fun u hu2 => ?_⟩
          obtain rfl : u0 = u := Option.some.inj hu2
          exact ⟨hub.trans hb.le, hlt⟩

lemma tickA_inv (f : ℚ → ℚ → ℚ) (w hgt b now : ℚ) (s : StateA)
    (hands : List Hand) (hb : b < now) (h : InvA b s) :
    InvA now (tickA f w hgt s now hands) := by
  obtain ⟨hch, hle, hsince⟩ := h
  match hands with
  | [] => exact InvA_mono b now _ ⟨hch, hle, hsince⟩ hb.le
  | [h1] => exact InvA_mono b now _ ⟨hch, hle, hsince⟩ hb.le
  | h1 :: h2 :: rest =>
    rcases hc : (computeDirectorFrameA h1 h2).corners with _ | c
    · have heq : tickA f w hgt s now (h1 :: h2 :: rest)
          = { s with currentCorners := none } := by
        simp [tickA, hc]
      rw [heq]
      exact InvA_mono b now _ ⟨hch, hle, hsince⟩ hb.le
    · by_cases hval : (computeDirectorFrameA h1 h2).valid = true
      · have heq : tickA f w hgt s now (h1 :: h2 :: rest) =
            { hist := pushEvict s.hist c 3,
              since := (dwellStep now (stableA f w hgt (pushEvict s.hist c 3))
                s.since s.captures).1,
              captures := (dwellStep now (stableA f w hgt (pushEvict s.hist c 3))
                s.since s.captures).2,
              currentCorners := some (averageCorners (pushEvict s.hist c 3)) } := by
          simp [tickA, hc, hval]
        rw [heq]
        exact dwellStep_inv b now _ s.since s.captures hb hch hle hsince
      · have heq : tickA f w hgt s now (h1 :: h2 :: rest) =
            { hist := pushEvict s.hist c 3, since := s.since,
              captures := s.captures,
              currentCorners := some (averageCorners (pushEvict s.hist c 3)) } := by
          simp [tickA, hc, hval]
        rw [heq]
        exact ⟨hch, fun t ht => (hle t ht).trans hb.le,
          fun u hu => ⟨(hsince u hu).1.trans hb.le, (hsince u hu).2⟩⟩

lemma runA_inv (f : ℚ → ℚ → ℚ) (w hgt : ℚ) (tr : Trace) :
    ∀ (b : ℚ) (s : StateA), List.Chain (· < ·) b (tr.map Prod.fst) → InvA b s →
    List.Chain' (fun a c => a + autoCaptureMs ≤ c) (runA f w hgt s tr).captures := by
  induction tr with
  | nil =>
    intro b s _ hinv
    exact hinv.1
  | cons p rest ih =>
    intro b s hchain hinv
    obtain ⟨now, hands⟩ := p
    simp only [List.map_cons, List.chain_cons] at hchain
    exact ih now (tickA f w hgt s now hands) hchain.2
      (tickA_inv f w hgt b now s hands hchain.1 hinv)
/-- Invariant tying a CameraViewV3 state to a wall-clock bound `b`:
recorded captures are more than `MIN_TIME_BETWEEN_CAPTURES_MS` apart,
none is later than `lastCaptureAt`, and `lastCaptureAt ≤ b`. -/
def InvC (b : ℚ) (s : StateC) : Prop :=
  List.Chain' (fun a c => a + minTimeBetweenCapturesMs < c) s.captures ∧
  (∀ t ∈ s.captures, t ≤ s.lastCaptureAt) ∧ s.lastCaptureAt ≤ b

lemma twoHandStepC_inv (f : ℚ → ℚ → ℚ) (coarse : Bool) (b now : ℚ)
    (s : StateC) (Li Lt Ri Rt : Point) (hb : b < now) (h : InvC b s) :
    InvC now (twoHandStepC f coarse s now Li Lt Ri Rt) := by
  obtain ⟨hch, hle, hlast⟩ := h
  have hkeep : ∀ lca : ℚ, lca ≤ b → (∀ t ∈ s.captures, t ≤ lca) →
      List.Chain' (fun a c => a + minTimeBetweenCapturesMs < c) s.captures ∧
      (∀ t ∈ s.captures, t ≤ lca) ∧ lca ≤ now :=
    fun lca hl hle2 => ⟨hch, hle2, hl.trans hb.le⟩
  have hcap : ∀ hgap : minTimeBetweenCapturesMs < now - s.lastCaptureAt,
      List.Chain' (fun a c => a + minTimeBetweenCapturesMs < c) (s.captures ++ [now]) ∧
      (∀ t ∈ s.captures ++ [now], t ≤ now) ∧ now ≤ now := by
    intro hgap
    refine ⟨chain'_append_singleton _ _ _ hch (fun x hx => ?_), fun t ht2 => ?_, le_refl _⟩
    · have := hle x hx
      linarith
    · rcases List.mem_append.mp ht2 with h2 | h2
      · have := hle t h2
        linarith
      · simp at h2
        exact h2.le
  unfold twoHandStepC
  by_cases ht : touchingC f coarse s Li Lt Ri Rt = true
  · simp only [ht, if_true]
    split_ifs with h1 h2 h3
    · simp only [Bool.and_eq_true, decide_eq_true_eq] at h2
      exact hcap h2.2
    · exact hkeep s.lastCaptureAt hlast hle
    · simp only [Bool.and_eq_true, decide_eq_true_eq] at h3
      exact hcap h3.2
    · exact hkeep s.lastCaptureAt hlast hle
  · simp only [Bool.not_eq_true] at ht
    simp only [ht, Bool.false_eq_true, if_false]
    exact hkeep s.lastCaptureAt hlast hle

lemma tickC_inv (f : ℚ → ℚ → ℚ) (coarse : Bool) (b now : ℚ) (s : StateC)
    (hands : List Hand) (hb : b < now) (h : InvC b s) :
    InvC now (tickC f coarse s now hands) := by
  have hmono : InvC now s := ⟨h.1, h.2.1, h.2.2.trans hb.le⟩
  match hands with
  | [] => exact ⟨h.1, h.2.1, h.2.2.trans hb.le⟩
  | [h1] => exact ⟨h.1, h.2.1, h.2.2.trans hb.le⟩
  | h1 :: h2 :: rest =>
    rcases hf : (h1 :: h2 :: rest).filter (fun hd => hd.tipI.isSome && hd.tipT.isSome)
      with _ | ⟨hA, _ | ⟨hB, tl2⟩⟩
    · simp only [tickC, hf]
      exact hmono
    · simp only [tickC, hf]
      exact hmono
    · simp only [tickC, hf]
      rcases hA with ⟨tiA, ttA, hlA⟩
      rcases hB with ⟨tiB, ttB, hlB⟩
      rcases tiA with _ | iA <;> rcases ttA with _ | tA <;>
        rcases tiB with _ | iB <;> rcases ttB with _ | tB <;>
        simp only <;>
        first
          | exact hmono
          | exact twoHandStepC_inv f coarse b now s _ _ _ _ hb h

lemma runC_inv (f : ℚ → ℚ → ℚ) (coarse : Bool) (tr : Trace) :
    ∀ (b : ℚ) (s : StateC), List.Chain (· < ·) b (tr.map Prod.fst) → InvC b s →
    List.Chain' (fun a c => a + minTimeBetweenCapturesMs < c)
      (runC f coarse s tr).captures := by
  induction tr with
  | nil =>
    intro b s _ hinv
    exact hinv.1
  | cons p rest ih =>
    intro b s hchain hinv
    obtain ⟨now, hands⟩ := p
    simp only [List.map_cons, List.chain_cons] at hchain
    exact ih now (tickC f coarse s now hands) hchain.2
      (tickC_inv f coarse b now s hands hchain.1 hinv)
/-- C1: single-flight holds by construction in the sequential tick model
(captures complete within a tick, so the capturing flag is false at
every tick boundary), and the two policies that do have a cooldown
enforce it globally: starting from the initial state, over any trace
with strictly increasing timestamps Policy A (CameraView) records
captures at least `AUTO_CAPTURE_MS = 300` ms apart, and Policy C
(CameraViewV3) records captures strictly more than
`MIN_TIME_BETWEEN_CAPTURES_MS = 400` ms apart.  (Policy B has no such
interval; see the counterexample.) -/
theorem c1_min_intercapture_interval
    (f : ℚ → ℚ → ℚ) (w hgt bA : ℚ) (coarse : Bool) (trA trC : Trace)
    (hA : List.Chain (· < ·) bA (trA.map Prod.fst))
    (hC : List.Chain (· < ·) 0 (trC.map Prod.fst)) :
    List.Chain' (fun a c => a + autoCaptureMs ≤ c)
      (runA f w hgt initA trA).captures ∧
    List.Chain' (fun a c => a + minTimeBetweenCapturesMs < c)
      (runC f coarse initC trC).captures := by
  constructor
  · exact runA_inv f w hgt trA bA initA hA
      ⟨List.chain'_nil, by simp [initA], by simp [initA]⟩
  · exact runC_inv f coarse trC 0 initC hC
      ⟨List.chain'_nil, by simp [initC], by simp [initC]⟩

/-- Witness for c1_min_intercapture_interval: the motionless 750 ms
Policy A trace (captures at 400 and 750) and the three-tick Policy C
contact trace (capture at 700) both satisfy the increasing-timestamp
hypothesis, and their capture lists obey the claimed spacing. -/
theorem c1_witness :
    List.Chain' (fun a c => a + autoCaptureMs ≤ c)
      (runA hypotAx 100 100 initA traceA750).captures ∧
    List.Chain' (fun a c => a + minTimeBetweenCapturesMs < c)
      (runC hypotAx false initC traceC).captures :=
  c1_min_intercapture_interval hypotAx 100 100 (-1) false traceA750 traceC
    (by norm_num [traceA750, traceA400, traceA250, List.chain_cons])
    (by norm_num [traceC, List.chain_cons])

/-- Policy B (CameraViewV2) has no inter-capture interval at all: two
twitch gestures 48 ms apart both produce captures (at 648 and 696),
well inside both other policies' cooldowns.  This refutes the
"under every policy" part of the claim. -/
theorem c1_policyB_double_capture :
    (runB initB traceB).captures = [648, 696] ∧
    (696 : ℚ) - 648 < autoCaptureMs ∧
    (696 : ℚ) - 648 < minTimeBetweenCapturesMs := by
  refine ⟨?_, by norm_num [autoCaptureMs], by norm_num [minTimeBetweenCapturesMs]⟩
  norm_num [runB, tickB, traceB, initB, obsB, handBL, handBR,
    computeDirectorFrameB, frameBBody, orderByIndexX, minSizeB, pushEvict,
    averageCorners, addCorners, zeroCorners, processSide, twitchInit,
    twitchWindowMs, downAmp, upAmp, instDownVel, shutterArmDelayMs,
    min_def, max_def, abs_of_nonneg, abs_of_nonpos]

end FrameCam
